import Mathlib

/-!
Shallow embedding of the netcontrol agent (policy parser, netfilter
programmer, connection timer, logging and signal handling) together with
theorems checking the specification's claims against it.

Conventions of the embedding:
* Strings are handled as `String` / `List Char`; the regular expressions of
  `config.rs` are embedded as executable recognizers with the same language.
* External effects (DNS resolution, the filesystem, the netlink socket) are
  modelled as explicit inputs and outputs: a `Resolver` maps a host name to
  the addresses a successful lookup returns, netlink traffic is a list of
  messages, and the kernel's installed rule set is a `List Rule` that the
  messages act on.
* A Rust `panic!` / `unwrap` on `Err` is modelled as `Except.error` with the
  panic message; machine integers stay within range here so `Nat` is used.
-/

/-! ## Character classes and small string utilities -/

/-- Class `[a-z0-9-]`, the letters-digits-hyphen class of the domain regex. -/
def isLdh (c : Char) : Bool := c.isLower || c.isDigit || c == '-'

/-- Class `[a-z0-9]`, lower-case alphanumeric class of the domain regex. -/
def isAlnumL (c : Char) : Bool := c.isLower || c.isDigit

/-- Numeric value of a digit run (as Rust's `str::parse` on digit input). -/
def digitsToNat (cs : List Char) : Nat :=
  cs.foldl (fun n c => n * 10 + (c.toNat - 48)) 0

/-- Parse a nonempty run of ASCII digits, else `none`. -/
def parseNatDigits (cs : List Char) : Option Nat :=
  if cs ≠ [] ∧ cs.all Char.isDigit = true then some (digitsToNat cs) else none

/-- Split a character list at every occurrence of `sep` (keeping empties),
like Rust's `str::split`. -/
def splitOnChar (sep : Char) : List Char → List (List Char)
  | [] => [[]]
  | c :: rest =>
    let r := splitOnChar sep rest
    if c == sep then [] :: r
    else
      match r with
      | g :: gs => (c :: g) :: gs
      | [] => [[c]]

/-- Helper for `split_whitespace`: accumulates the current token reversed. -/
def splitWsAux : List Char → List Char → List (List Char)
  | [], acc => if acc.isEmpty then [] else [acc.reverse]
  | c :: rest, acc =>
    if c.isWhitespace then
      if acc.isEmpty then splitWsAux rest []
      else acc.reverse :: splitWsAux rest []
    else splitWsAux rest (c :: acc)

/-- Rust's `str::split_whitespace`: whitespace-separated tokens, no empties. -/
def split_whitespace (l : List Char) : List (List Char) := splitWsAux l []

/-! ## The regular expressions of `config.rs`, as recognizers

`reg_cidr`:
`^((25[0-5]|2[0-4][0-9]|[01]?[0-9][0-9]?)\.){3}(25[0-5]|2[0-4][0-9]|[01]?[0-9][0-9]?)([\/][0-3][0-2]?|[\/][1-2][0-9]|[\/][0-9])?$`
-/

/-- One octet group `25[0-5]|2[0-4][0-9]|[01]?[0-9][0-9]?`. -/
def isOctetTok (cs : List Char) : Bool :=
  match cs with
  | [a] => a.isDigit
  | [a, b] => a.isDigit && b.isDigit
  | [a, b, c] =>
      (a == '2' && b == '5' && '0' ≤ c && c ≤ '5')
      || (a == '2' && '0' ≤ b && b ≤ '4' && c.isDigit)
      || ((a == '0' || a == '1') && b.isDigit && c.isDigit)
  | _ => false

/-- The optional mask part `([\/][0-3][0-2]?|[\/][1-2][0-9]|[\/][0-9])?`
(given the characters from the slash on, or `[]` when absent). -/
def isMaskTok (cs : List Char) : Bool :=
  match cs with
  | [] => true
  | ['/', a] => a.isDigit
  | ['/', a, b] =>
      ('0' ≤ a && a ≤ '3' && '0' ≤ b && b ≤ '2')
      || (('1' ≤ a && a ≤ '2') && b.isDigit)
  | _ => false

/-- The language of `reg_cidr` from `QuotaType::from_str`. -/
def reg_cidr_is_match (l : List Char) : Bool :=
  match splitOnChar '/' l with
  | [host] =>
      (match splitOnChar '.' host with
       | [w, x, y, z] => isOctetTok w && isOctetTok x && isOctetTok y && isOctetTok z
       | _ => false)
  | [host, m] =>
      (match splitOnChar '.' host with
       | [w, x, y, z] => isOctetTok w && isOctetTok x && isOctetTok y && isOctetTok z
       | _ => false) && isMaskTok ('/' :: m)
  | _ => false

/-!
Regex `reg_domain`:
`^(((?!-))(xn--|_{1,1})?[a-z0-9-]{0,61}[a-z0-9]{1,1}\.)*(xn--)?([a-z0-9][a-z0-9\-]{0,60}|[a-z0-9-]{1,30}\.[a-z]{2,})$`
embedded as a backtracking recognizer: `domainGroupRems` lists the possible
remainders after consuming one starred label group, `domainStarRems` closes
it under repetition, `domainTail` recognizes the final alternation.
-/

/-- Remainders after the optional `(xn--|_{1,1})?` of a label group. -/
def domainOptRems (l : List Char) : List (List Char) :=
  let base := [l]
  let base := if l.take 4 = ['x', 'n', '-', '-'] then l.drop 4 :: base else base
  if l.take 1 = ['_'] then l.drop 1 :: base else base

/-- Remainders after `[a-z0-9-]{0,61}[a-z0-9]{1,1}\.` (the label body). -/
def domainBodyRems (l : List Char) : List (List Char) :=
  (List.range 62).filterMap fun m =>
    let pre := l.take m
    if pre.length == m && pre.all isLdh then
      match l.drop m with
      | c :: d :: rest => if isAlnumL c && d == '.' then some rest else none
      | _ => none
    else none

/-- Remainders after one full label group, honouring the `(?!-)` lookahead. -/
def domainGroupRems (l : List Char) : List (List Char) :=
  if l.take 1 = ['-'] then []
  else (domainOptRems l).flatMap domainBodyRems

/-- Remainders after zero or more label groups (fuel-bounded; each group
consumes at least two characters, so `l.length` fuel suffices). -/
def domainStarRems : Nat → List Char → List (List Char)
  | 0, l => [l]
  | fuel + 1, l => l :: (domainGroupRems l).flatMap (domainStarRems fuel)

/-- The final alternation `[a-z0-9][a-z0-9\-]{0,60}|[a-z0-9-]{1,30}\.[a-z]{2,}`. -/
def domainTailBody (l : List Char) : Bool :=
  (match l with
   | c :: rest => isAlnumL c && rest.length ≤ 60 && rest.all isLdh
   | [] => false)
  || (List.range 30).any fun m =>
       let k := m + 1
       let pre := l.take k
       pre.length == k && pre.all isLdh &&
       (match l.drop k with
        | d :: rest => d == '.' && rest.length ≥ 2 && rest.all Char.isLower
        | [] => false)

/-- Optional `xn--` then the tail alternation. -/
def domainTail (l : List Char) : Bool :=
  domainTailBody l
  || (if l.take 4 = ['x', 'n', '-', '-'] then domainTailBody (l.drop 4) else false)

/-- The language of `reg_domain` from `QuotaType::from_str`. -/
def reg_domain_is_match (l : List Char) : Bool :=
  (domainStarRems l.length l).any domainTail

/-- Regex `reg_data_quota`: `^[0-9]+(kb|mb|gb|kib|mib|gib)$`. -/
def reg_data_quota_is_match (l : List Char) : Bool :=
  let num := l.takeWhile Char.isDigit
  let suf := l.dropWhile Char.isDigit
  !num.isEmpty &&
    (suf = ['k', 'b'] || suf = ['m', 'b'] || suf = ['g', 'b']
      || suf = ['k', 'i', 'b'] || suf = ['m', 'i', 'b'] || suf = ['g', 'i', 'b'])

/-- Regex `reg_time_quota`: `^[0-9]+(s|m|h)$`. -/
def reg_time_quota_is_match (l : List Char) : Bool :=
  let num := l.takeWhile Char.isDigit
  let suf := l.dropWhile Char.isDigit
  !num.isEmpty && (suf = ['s'] || suf = ['m'] || suf = ['h'])

/-! ## External parsers used by `config.rs`

`ipnetwork::Ipv4Network::from_str`, `parse_duration::parse` and
`byte_unit::Byte::from_str` are third-party crates; they are embedded here
with their documented behaviour on the inputs the guarding regexes admit. -/

/-- Type `ipnetwork::Ipv4Network`: four octets and a prefix length. -/
structure Ipv4Network where
  a : Nat
  b : Nat
  c : Nat
  d : Nat
  plen : Nat
deriving DecidableEq, Repr

/-- The address as one 32-bit number (`Ipv4Network::ip`). -/
def Ipv4Network.ipNum (n : Ipv4Network) : Nat :=
  ((n.a * 256 + n.b) * 256 + n.c) * 256 + n.d

/-- The network mask as one 32-bit number (`Ipv4Network::mask`). -/
def Ipv4Network.maskNum (n : Ipv4Network) : Nat :=
  2 ^ 32 - 2 ^ (32 - n.plen)

/-- The dotted-quad part `a.b.c.d` of an address literal. -/
def parseOctets (h : List Char) : Option (Nat × Nat × Nat × Nat) :=
  match splitOnChar '.' h with
  | [w, x, y, z] => do
      let a ← parseNatDigits w
      let b ← parseNatDigits x
      let c ← parseNatDigits y
      let d ← parseNatDigits z
      if a ≤ 255 ∧ b ≤ 255 ∧ c ≤ 255 ∧ d ≤ 255 then some ⟨a, b, c, d⟩ else none
  | _ => none

/-- Parsing `Ipv4Network::from_str`: `a.b.c.d` (prefix defaults to 32) or
`a.b.c.d/p` with `p ≤ 32`. -/
def ipv4Network_from_str (l : List Char) : Option Ipv4Network :=
  match splitOnChar '/' l with
  | [h] => (parseOctets h).map fun o => ⟨o.1, o.2.1, o.2.2.1, o.2.2.2, 32⟩
  | [h, p] => do
      let o ← parseOctets h
      let n ← parseNatDigits p
      if n ≤ 32 then some ⟨o.1, o.2.1, o.2.2.1, o.2.2.2, n⟩ else none
  | _ => none

/-- Function `parse_duration::parse` restricted to the forms `reg_time_quota` admits:
an integer with suffix `s`, `m` or `h`, in seconds. -/
def duration_parse (l : List Char) : Option Nat :=
  let num := l.takeWhile Char.isDigit
  let suf := l.dropWhile Char.isDigit
  if num.isEmpty then none
  else if suf = ['s'] then some (digitsToNat num)
  else if suf = ['m'] then some (digitsToNat num * 60)
  else if suf = ['h'] then some (digitsToNat num * 3600)
  else none

/-- The six byte-size suffixes `reg_data_quota` admits. -/
inductive ByteSuffix
  | kb
  | mb
  | gb
  | kib
  | mib
  | gib
deriving DecidableEq, Repr

/-- The characters of a byte-size suffix. -/
def ByteSuffix.chars : ByteSuffix → List Char
  | .kb => ['k', 'b']
  | .mb => ['m', 'b']
  | .gb => ['g', 'b']
  | .kib => ['k', 'i', 'b']
  | .mib => ['m', 'i', 'b']
  | .gib => ['g', 'i', 'b']

/-- Multipliers of `byte_unit`: SI suffixes scale by powers of 1000, IEC
suffixes by powers of 1024. -/
def ByteSuffix.mult : ByteSuffix → Nat
  | .kb => 1000
  | .mb => 1000000
  | .gb => 1000000000
  | .kib => 1024
  | .mib => 1048576
  | .gib => 1073741824

/-- Read a suffix from its characters. -/
def readByteSuffix (suf : List Char) : Option ByteSuffix :=
  if suf = ['k', 'b'] then some .kb
  else if suf = ['m', 'b'] then some .mb
  else if suf = ['g', 'b'] then some .gb
  else if suf = ['k', 'i', 'b'] then some .kib
  else if suf = ['m', 'i', 'b'] then some .mib
  else if suf = ['g', 'i', 'b'] then some .gib
  else none

/-- Function `byte_unit::Byte::from_str` followed by `get_bytes`, on the literals the
guarding regex admits: the integer scaled by the suffix multiplier. -/
def byte_from_str (l : List Char) : Option Nat :=
  let num := l.takeWhile Char.isDigit
  let suf := l.dropWhile Char.isDigit
  if num.isEmpty then none
  else (readByteSuffix suf).map fun u => digitsToNat num * u.mult

/-! ## DNS resolution (`accnt::Address`) -/

/-- An address a lookup returns; the code keeps IPv4 and skips the rest. -/
inductive IpAddr
  | v4 (a b c d : Nat)
  | v6
deriving DecidableEq, Repr

/-- The system resolver, as the addresses a successful `lookup_ip` returns.
(A failed lookup panics in the source — `resolver.lookup_ip(s).unwrap()` —
so only successful lookups are representable here.) -/
def Resolver : Type := String → List IpAddr

/-- Function `Address::from_str`: empty input resolves to no addresses; otherwise the
IPv4 results of the lookup, each stored as a `/32` network. -/
def Address_from_str (resolver : Resolver) (s : String) : List Ipv4Network :=
  if s = "" then []
  else (resolver s).filterMap fun a =>
    match a with
    | .v4 a b c d => some ⟨a, b, c, d, 32⟩
    | .v6 => none

/-! ## `QuotaType::from_str` and `Config::new_from_file` -/

/-- One parsed accounting entry: resolved addresses plus a quota value
(seconds for time entries, bytes for data entries). -/
structure Accounting (α : Type) where
  addr : List Ipv4Network
  quota : α
deriving DecidableEq, Repr

/-- Error type `accnt::ParseAccntError`. The payloads of the wrapped external errors
are irrelevant to the claims and are dropped. -/
inductive ParseAccntError
  | Empty
  | BadLen
  | InnactiveEntry
  | ParseDataQuota
  | DNSError
  | ParseTimeQuota
  | ParseIp
  | InvalidHostFormat
  | InvalidQuotaFormat
  | UnknownError
deriving DecidableEq, Repr

/-- Type `accnt::QuotaType`: a time entry (quota in seconds, `Duration::as_secs`)
or a data entry (quota in bytes, `Byte::get_bytes`). -/
inductive QuotaType
  | Time (acc : Accounting Nat)
  | Data (acc : Accounting Nat)
deriving DecidableEq, Repr

/-- Function `QuotaType::from_str` over a one-line entry, following the source
control flow: empty line, `#` first character, exactly-two-token split,
host classification by the two host regexes, then the two quota regexes
(time checked before data). -/
def QuotaType.from_str (resolver : Resolver) (s : String) : Except ParseAccntError QuotaType :=
  if s.length = 0 then .error .Empty
  else if s.data.head? = some '#' then .error .InnactiveEntry
  else
    match split_whitespace s.data with
    | [dest_str, quota_str] =>
      let addrRes : Except ParseAccntError (List Ipv4Network) :=
        if reg_cidr_is_match dest_str then
          match ipv4Network_from_str dest_str with
          | some n => .ok [n]
          | none => .error .ParseIp
        else if reg_domain_is_match dest_str then
          .ok (Address_from_str resolver (String.mk dest_str))
        else .error .InvalidHostFormat
      match addrRes with
      | .error e => .error e
      | .ok addr =>
        if reg_time_quota_is_match quota_str then
          match duration_parse quota_str with
          | some q => .ok (.Time ⟨addr, q⟩)
          | none => .error .ParseTimeQuota
        else if reg_data_quota_is_match quota_str then
          match byte_from_str quota_str with
          | some q => .ok (.Data ⟨addr, q⟩)
          | none => .error .ParseDataQuota
        else .error .InvalidQuotaFormat
    | _ => .error .BadLen

/-- Type `config::Config`: the data and time entries in input order. -/
structure Config where
  data : List (Accounting Nat)
  time : List (Accounting Nat)
deriving DecidableEq, Repr

/-- Error type `config::ParseConfigError`. -/
inductive ParseConfigError
  | FileError
  | EntryError (e : ParseAccntError) (i : Nat)
  | UnknownError
deriving DecidableEq, Repr

/-- The parsing loop of `Config::new_from_file`: `i` is the running
`enumerate` index over every line read, comments (`InnactiveEntry`) are
skipped with `continue`, the first other error aborts with that index. -/
def parseLines (resolver : Resolver) : Config → Nat → List String → Except ParseConfigError Config
  | conf, _, [] => .ok conf
  | conf, i, l :: ls =>
    match QuotaType.from_str resolver l with
    | .ok (.Data a) => parseLines resolver { conf with data := conf.data ++ [a] } (i + 1) ls
    | .ok (.Time a) => parseLines resolver { conf with time := conf.time ++ [a] } (i + 1) ls
    | .error e =>
      if e = .InnactiveEntry then parseLines resolver conf (i + 1) ls
      else .error (.EntryError e i)

/-- Function `Config::new_from_file`. The file argument is `none` when
`Self::read_file` fails; the source guards the loop with
`if let Ok(lines) = ...` and still returns `Ok(conf)`, so an unreadable
file yields the empty configuration. -/
def Config.new_from_file (resolver : Resolver) (file : Option (List String)) : Except ParseConfigError Config :=
  match file with
  | none => .ok ⟨[], []⟩
  | some lines => parseLines resolver ⟨[], []⟩ 0 lines

/-- The configuration-loading step of `main.rs::run`:
`Config::new_from_file(...).unwrap()` — an `Err` does not become a
`StartupErr` (exit code 1) but a panic. -/
def run_config_step (resolver : Resolver) (file : Option (List String)) : Except String Config :=
  match Config.new_from_file resolver file with
  | .ok c => .ok c
  | .error _ => .error "panic: called Result::unwrap() on an Err value"

deriving instance DecidableEq for Except

/-! ## Netfilter model (`netfilter.rs`)

Rules are modelled by their chain and expression list exactly as built by
the `nft_expr!` sequences; netlink traffic is a list of `NlMsg`; the
kernel's installed rule set is a `List Rule` on which `Add` appends and
`Del` removes the first matching rule. -/

def TABLE_NAME : String := "netcontrol"

def DATA_IN_CHAIN_NAME : String := "data_qt-in"

def DATA_OUT_CHAIN_NAME : String := "data_qt-out"

def TIME_IN_CHAIN_NAME : String := "time_qt-in"

def TIME_OUT_CHAIN_NAME : String := "time_qt-out"

/-- Constant `DATA_LOG_PREFIX` of the source. -/
def DATA_LOG_TAG : String := "dq_"

/-- Constant `TIME_LOG_PREFIX` of the source. -/
def TIME_LOG_TAG : String := "tq_"

/-- Constant `TIME_START_LOG_PREFIX` of the source. -/
def TIME_START_LOG_TAG : String := "start_"

/-- Constant `TIME_FIN_LOG_PREFIX` of the source. -/
def TIME_FIN_LOG_TAG : String := "fin_"

def DATA_QUOTA_NUM : Nat := 0

def TIME_QUOTA_NUM : Nat := 1

/-- One `nft_expr!` expression. TCP flag masks are the numeric values of
`nftnl::expr::TcpFlags` (`FIN = 1`, `SYN = 2`, `RST = 4`, `ACK = 16`). -/
inductive Expr
  | metaL4proto
  | cmpEqU8 (n : Nat)
  | cmpGtU8 (n : Nat)
  | payloadSaddr
  | payloadDaddr
  | payloadTcpFlags
  | bitwiseMaskXor (mask xorv : Nat)
  | cmpEqIp (ip : Nat)
  | logGroup (group : Nat) (tag : String)
  | logGroupSnap (group : Nat) (snap : Nat) (tag : String)
  | quotaRef (qname : String)
  | verdictDrop
  | verdictReject
deriving DecidableEq, Repr

/-- A netfilter rule: its chain and the expressions added to it in order. -/
structure Rule where
  chain : String
  exprs : List Expr
deriving DecidableEq, Repr

/-- An nftables quota object (`nftnl::Quota`). -/
inductive NfQuotaKind
  | Over
  | Until
deriving DecidableEq, Repr

/-- Structure `nftnl::Quota` as configured by `NfDataLimit::new`. -/
structure QuotaObj where
  name : String
  kind : NfQuotaKind
  limit : Nat
deriving DecidableEq, Repr

/-- Type `nftnl::MsgType`. -/
inductive MsgType
  | Add
  | Del
deriving DecidableEq, Repr

/-- One message of a netlink batch. -/
inductive NlMsg
  | ruleMsg (m : MsgType) (r : Rule)
  | tableMsg (m : MsgType) (name : String)
  | chainMsg (m : MsgType) (name : String)
  | quotaMsg (m : MsgType) (q : QuotaObj)
deriving DecidableEq, Repr

/-- Effect of one committed message on the installed rule set. -/
def applyMsg (s : List Rule) : NlMsg → List Rule
  | .ruleMsg .Add r => s ++ [r]
  | .ruleMsg .Del r => s.erase r
  | _ => s

/-- Effect of a committed batch on the installed rule set. -/
def applyBatch (s : List Rule) (b : List NlMsg) : List Rule := b.foldl applyMsg s

/-- Struct `TimeLimitRuleset`: the five rules of a time entry for one CIDR. -/
structure TimeLimitRuleset where
  start : Rule
  in_fin : Rule
  out_fin : Rule
  block_in : Rule
  block_out : Rule
deriving DecidableEq, Repr

/-- Constructor `TimeLimitRuleset::new`, expression for expression: `SYN|ACK = 18`,
`RST|FIN = 5`, `IPPROTO_TCP = 6`. -/
def TimeLimitRuleset.new (out_chain in_chain : String) (ip : Ipv4Network) (name : String) : TimeLimitRuleset :=
  { start :=
      { chain := in_chain
      , exprs :=
          [ .metaL4proto, .cmpEqU8 6
          , .payloadSaddr, .bitwiseMaskXor ip.maskNum 0, .cmpEqIp ip.ipNum
          , .payloadTcpFlags, .bitwiseMaskXor 18 0, .cmpEqU8 18
          , .logGroup TIME_QUOTA_NUM (TIME_START_LOG_TAG ++ name) ] }
  , in_fin :=
      { chain := in_chain
      , exprs :=
          [ .metaL4proto, .cmpEqU8 6
          , .payloadSaddr, .bitwiseMaskXor ip.maskNum 0, .cmpEqIp ip.ipNum
          , .payloadTcpFlags, .bitwiseMaskXor 5 0, .cmpGtU8 0
          , .logGroup TIME_QUOTA_NUM (TIME_FIN_LOG_TAG ++ name) ] }
  , out_fin :=
      { chain := out_chain
      , exprs :=
          [ .metaL4proto, .cmpEqU8 6
          , .payloadDaddr, .bitwiseMaskXor ip.maskNum 0, .cmpEqIp ip.ipNum
          , .payloadTcpFlags, .bitwiseMaskXor 5 0, .cmpGtU8 0
          , .logGroup TIME_QUOTA_NUM (TIME_FIN_LOG_TAG ++ name) ] }
  , block_in :=
      { chain := in_chain
      , exprs :=
          [ .metaL4proto, .cmpEqU8 6
          , .payloadSaddr, .bitwiseMaskXor ip.maskNum 0, .cmpEqIp ip.ipNum
          , .verdictReject ] }
  , block_out :=
      { chain := out_chain
      , exprs :=
          [ .metaL4proto, .cmpEqU8 6
          , .payloadDaddr, .bitwiseMaskXor ip.maskNum 0, .cmpEqIp ip.ipNum
          , .verdictReject ] } }

/-- Struct `DataLimitRuleset`: the block and log rules of a data entry for one CIDR. -/
structure DataLimitRuleset where
  block : Rule
  log : Rule
deriving DecidableEq, Repr

/-- Constructor `DataLimitRuleset::new`: both rules match the source CIDR and the quota
object; the block rule drops, the log rule logs to group 0 with the quota's
name as its tag. -/
def DataLimitRuleset.new (in_chain : String) (ip : Ipv4Network) (quota_name : String) : DataLimitRuleset :=
  { block :=
      { chain := in_chain
      , exprs :=
          [ .payloadSaddr, .bitwiseMaskXor ip.maskNum 0, .cmpEqIp ip.ipNum
          , .quotaRef quota_name, .verdictDrop ] }
  , log :=
      { chain := in_chain
      , exprs :=
          [ .payloadSaddr, .bitwiseMaskXor ip.maskNum 0, .cmpEqIp ip.ipNum
          , .quotaRef quota_name, .logGroupSnap DATA_QUOTA_NUM 0 quota_name ] } }

/-! ## `ConnTimer` (`timer.rs`) -/

/-- Type `timer::ConnTimer`. The callback is modelled by the netlink batch the
installed closure (`move || self.block()`) would commit when invoked. -/
structure ConnTimer where
  target_secs : Nat
  current_secs : Nat
  active : Bool
  cb : Option (List NlMsg)
deriving DecidableEq, Repr

/-- Constructor `ConnTimer::new`. -/
def ConnTimer.new (target : Nat) : ConnTimer :=
  { target_secs := target, current_secs := 0, active := false, cb := none }

/-- Function `ConnTimer::stop`: drops guard and timer and clears `active`. -/
def ConnTimer.stop (t : ConnTimer) : ConnTimer := { t with active := false }

/-- One one-second tick of the closure scheduled by `ConnTimer::start`:
the counter is incremented and, once it reaches the target, the source
matches on `self.cb` but the invocation `cb()` inside the `Some` arm is
commented out, so no batch is ever committed; the timer just stops. -/
def ConnTimer.tick (t : ConnTimer) : ConnTimer × List NlMsg :=
  let count := t.current_secs + 1
  if count ≥ t.target_secs then
    (ConnTimer.stop { t with current_secs := count }, [])
  else ({ t with current_secs := count }, [])

/-- Function `ConnTimer::reset`. -/
def ConnTimer.reset (t : ConnTimer) : ConnTimer := { t with current_secs := 0 }

/-! ## `NfTimeLimit` and `NfDataLimit` -/

/-- Struct `NfTimeLimit`: a timer plus the per-CIDR rulesets (the `HashMap` is
modelled as an association list in insertion order). -/
structure NfTimeLimit where
  timer : ConnTimer
  rules : List (Ipv4Network × TimeLimitRuleset)
deriving DecidableEq, Repr

/-- Struct `NfDataLimit`: the quota object plus the per-CIDR rulesets. -/
structure NfDataLimit where
  quota : QuotaObj
  rules : List (Ipv4Network × DataLimitRuleset)
deriving DecidableEq, Repr

/-- Constructor `NfTimeLimit::new`. -/
def NfTimeLimit.new (acc : Accounting Nat) (in_chain out_chain : String) (name : String) : NfTimeLimit :=
  { timer := ConnTimer.new acc.quota
  , rules := acc.addr.map fun ip => (ip, TimeLimitRuleset.new out_chain in_chain ip name) }

/-- Constructor `NfDataLimit::new`: the quota object is named after the entry, has kind
`Over` and limit `quota.to_quota()` (the byte count). -/
def NfDataLimit.new (acc : Accounting Nat) (in_chain : String) (name : String) : NfDataLimit :=
  { quota := { name := name, kind := .Over, limit := acc.quota }
  , rules := acc.addr.map fun ip => (ip, DataLimitRuleset.new in_chain ip name) }

/-- Batch of `NfTimeLimit::add`: the three monitor rules per CIDR (no block
rules). -/
def NfTimeLimit.add_batch (l : NfTimeLimit) : List NlMsg :=
  l.rules.flatMap fun p =>
    [.ruleMsg .Add p.2.start, .ruleMsg .Add p.2.in_fin, .ruleMsg .Add p.2.out_fin]

/-- Batch of `NfTimeLimit::block`: both block rules per CIDR, added. -/
def NfTimeLimit.block_batch (l : NfTimeLimit) : List NlMsg :=
  l.rules.flatMap fun p => [.ruleMsg .Add p.2.block_in, .ruleMsg .Add p.2.block_out]

/-- Batch of `NfTimeLimit::unblock`: both block rules per CIDR, deleted. -/
def NfTimeLimit.unblock_batch (l : NfTimeLimit) : List NlMsg :=
  l.rules.flatMap fun p => [.ruleMsg .Del p.2.block_in, .ruleMsg .Del p.2.block_out]

/-- Batch of `NfTimeLimit::delete`: all five rules per CIDR, deleted. -/
def NfTimeLimit.delete_batch (l : NfTimeLimit) : List NlMsg :=
  l.rules.flatMap fun p =>
    [ .ruleMsg .Del p.2.start, .ruleMsg .Del p.2.in_fin, .ruleMsg .Del p.2.out_fin
    , .ruleMsg .Del p.2.block_in, .ruleMsg .Del p.2.block_out ]

/-- Function `NfTimeLimit::add` also installs the timer callback
`move || self.block()`, modelled by its batch. -/
def NfTimeLimit.add (l : NfTimeLimit) : NfTimeLimit × List NlMsg :=
  ({ l with timer := { l.timer with cb := some l.block_batch } }, l.add_batch)

/-- Batch of `NfDataLimit::add`: block rule and log rule per CIDR. -/
def NfDataLimit.add_batch (l : NfDataLimit) : List NlMsg :=
  l.rules.flatMap fun p => [.ruleMsg .Add p.2.block, .ruleMsg .Add p.2.log]

/-- Batch of `NfDataLimit::delete`. -/
def NfDataLimit.delete_batch (l : NfDataLimit) : List NlMsg :=
  l.rules.flatMap fun p => [.ruleMsg .Del p.2.block, .ruleMsg .Del p.2.log]

/-- Batch of `NfDataLimit::block`: only the log rule is deleted per CIDR. -/
def NfDataLimit.block_batch (l : NfDataLimit) : List NlMsg :=
  l.rules.flatMap fun p => [.ruleMsg .Del p.2.log]

/-- Batch of `NfDataLimit::unblock`: the source body is only the comment
`// TODO reset quota in NF (yet to be implemented)` — nothing is sent. -/
def NfDataLimit.unblock_batch (_ : NfDataLimit) : List NlMsg := []

/-! ## The nflog callbacks and `deinit` -/

/-- Callback `data_quota_cb`: the body only emits a `debug!` line with the message's
tag; it sends no netlink messages and changes no state. -/
def data_quota_cb (_tag : String) : List NlMsg := []

/-- Callback `time_quota_cb`: likewise only a `debug!` line. -/
def time_quota_cb (_tag : String) : List NlMsg := []

/-- Dispatcher step for a group-0 (data quota) log event: the installed
rule set after the callback ran. -/
def data_quota_event_step (s : List Rule) (tag : String) : List Rule :=
  applyBatch s (data_quota_cb tag)

/-- Dispatcher step for a group-1 (time quota) log event. -/
def time_quota_event_step (s : List Rule) (tag : String) : List Rule :=
  applyBatch s (time_quota_cb tag)

/-- The process-wide `HANDLE_INSTANCE`, populated only by `init`. -/
structure NfHandleModel where
  tableName : String
deriving DecidableEq, Repr

/-- Function `NfHandle::get`: `HANDLE_INSTANCE.get_mut().expect(...)` — panics when
`init` has not run. -/
def NfHandle.get : Option NfHandleModel → Except String NfHandleModel
  | none => .error "nfhandle is not initialized"
  | some h => .ok h

/-- Function `netfilter::deinit`: one `Del`-table message (cascading in the kernel),
committed with acknowledgement wait; panics when uninitialized. -/
def deinit (inst : Option NfHandleModel) : Except String (List NlMsg) :=
  match NfHandle.get inst with
  | .error e => .error e
  | .ok h => .ok [.tableMsg .Del h.tableName]

/-! ## Signal handling (`main.rs`) and logging (`logging.rs`) -/

/-- The signal numbers of `main.rs::SIGNALS` on Linux:
TERM, QUIT, INT, TSTP, WINCH, HUP, CHLD, CONT. -/
def SIGNALS : List Nat := [15, 3, 2, 20, 28, 1, 17, 18]

/-- Outcome of the signal-handler thread body. -/
inductive ProcOutcome
  | exited (code : Nat)
  | panicked (msg : String)
deriving DecidableEq, Repr

/-- The body run for each received signal:
`netfilter::deinit().unwrap(); std::process::exit(0);`. -/
def signal_thread_step (inst : Option NfHandleModel) : ProcOutcome :=
  match deinit inst with
  | .ok _ => .exited 0
  | .error m => .panicked m

/-- The filesystem, as path to contents. -/
def FsState : Type := String → Option String

/-- Function `fs::remove_file`. -/
def remove_file (fs : FsState) (p : String) : FsState :=
  fun q => if q = p then none else fs q

/-- Function `fs::File::create`: a fresh empty file. -/
def file_create (fs : FsState) (p : String) : FsState :=
  fun q => if q = p then some "" else fs q

/-- Function `logging::create_log_file`: delete the file if it exists, then
create it empty. -/
def create_log_file (fs : FsState) (p : String) : FsState :=
  if (fs p).isSome then file_create (remove_file fs p) p else file_create fs p

/-- The filesystem effect of `logging::init`: with `--log <p>` the log file
is recreated empty; without it the `None` arm does nothing. -/
def logging_init_fs (logfile : Option String) (fs : FsState) : FsState :=
  match logfile with
  | some p => create_log_file fs p
  | none => fs

/-! ## Concrete fixtures used by the claim theorems -/

/-- A resolver whose every lookup returns no addresses. -/
def r0 : Resolver := fun _ => []

/-- A resolver whose every lookup returns one IPv6 address and no IPv4. -/
def r6 : Resolver := fun _ => [IpAddr.v6]

/-- The network `10.0.0.5/32` from the spec's scenarios. -/
def ip1 : Ipv4Network := ⟨10, 0, 0, 5, 32⟩

/-- The time entry `10.0.0.5 30s`, installed as `tq_0`. -/
def tq0 : NfTimeLimit := NfTimeLimit.new ⟨[ip1], 30⟩ TIME_IN_CHAIN_NAME TIME_OUT_CHAIN_NAME "tq_0"

/-- The ruleset of `tq0` for its single CIDR. -/
def tq0rs : TimeLimitRuleset := TimeLimitRuleset.new TIME_OUT_CHAIN_NAME TIME_IN_CHAIN_NAME ip1 "tq_0"

/-- The data entry `10.0.0.5 1kb`, installed as `dq_0`. -/
def dq0 : NfDataLimit := NfDataLimit.new ⟨[ip1], 1000⟩ DATA_IN_CHAIN_NAME "dq_0"

/-- The ruleset of `dq0` for its single CIDR. -/
def dq0rs : DataLimitRuleset := DataLimitRuleset.new DATA_IN_CHAIN_NAME ip1 "dq_0"

/-- Installed rules after `init` processed `tq0` (its `add` batch applied
to an empty kernel). -/
def s_time0 : List Rule := applyBatch [] (NfTimeLimit.add tq0).2

/-- The timer of `tq0` after `add` installed its block callback, one second
before reaching the 30-second limit. -/
def t1 : ConnTimer := { (NfTimeLimit.add tq0).1.timer with active := true, current_secs := 29 }

/-- Installed rules after `init` processed `dq0`. -/
def s_data0 : List Rule := applyBatch [] dq0.add_batch

/-- Whether a line lets `new_from_file`'s loop continue past it (a parsed
entry or a skipped comment). -/
def line_passes (r : Resolver) (l : String) : Bool :=
  match QuotaType.from_str r l with
  | .ok _ => true
  | .error e => decide (e = .InnactiveEntry)

/-- The block rules of a time entry, in batch order. -/
def blockRulesList (tq : NfTimeLimit) : List Rule :=
  tq.rules.flatMap fun p => [p.2.block_in, p.2.block_out]

/-! ## Helper lemmas -/

/-- A line whose first character is `#` is classified `InnactiveEntry`. -/
theorem comment_line_skip (r : Resolver) (s : String) (h : s.data.head? = some '#') :
    QuotaType.from_str r s = .error .InnactiveEntry := by
  obtain ⟨l⟩ := s
  cases l with
  | nil => simp at h
  | cons c cs =>
    unfold QuotaType.from_str
    have h1 : ¬((String.mk (c :: cs)).length = 0) := by simp [String.length]
    rw [if_neg h1, if_pos h]

/-- A successful run of the parsing loop does not depend on the running
line index (the index only reaches the result through errors). -/
theorem parseLines_ok_irrel (r : Resolver) :
    ∀ (ls : List String) (conf : Config) (i j : Nat) (c : Config),
      parseLines r conf i ls = .ok c → parseLines r conf j ls = .ok c := by
  intro ls
  induction ls with
  | nil => intro conf i j c h; exact h
  | cons l rest ih =>
    intro conf i j c h
    simp only [parseLines] at h ⊢
    cases hq : QuotaType.from_str r l with
    | ok q =>
      rw [hq] at h
      cases q with
      | Data a => exact ih _ _ _ _ h
      | Time a => exact ih _ _ _ _ h
    | error e =>
      rw [hq] at h
      cases e <;> first
        | exact ih _ _ _ _ h
        | exact Except.noConfusion h

/-- Inserting a `#`-first-character line anywhere leaves the successful
parse results of the remaining lines unchanged. -/
theorem parseLines_comment_insert (r : Resolver) (l : String) (hl : l.data.head? = some '#') :
    ∀ (pre : List String) (conf : Config) (i : Nat) (post : List String) (c : Config),
      (parseLines r conf i (pre ++ l :: post) = .ok c ↔ parseLines r conf i (pre ++ post) = .ok c) := by
  intro pre
  induction pre with
  | nil =>
    intro conf i post c
    constructor
    · intro h
      simp only [List.nil_append, parseLines, comment_line_skip r l hl] at h
      exact parseLines_ok_irrel r _ _ _ _ _ h
    · intro h
      simp only [List.nil_append, parseLines, comment_line_skip r l hl]
      exact parseLines_ok_irrel r _ _ _ _ _ h
  | cons p pre ih =>
    intro conf i post c
    simp only [List.cons_append, parseLines]
    cases hq : QuotaType.from_str r p with
    | ok q =>
      cases q with
      | Data a => exact ih _ _ _ _
      | Time a => exact ih _ _ _ _
    | error e =>
      cases e <;> first
        | exact ih _ _ _ _
        | exact Iff.rfl

/-- Splitting a fully-whitespace character list yields no tokens. -/
theorem splitWsAux_all_ws :
    ∀ (l : List Char), (∀ c ∈ l, c.isWhitespace = true) → splitWsAux l [] = [] := by
  intro l
  induction l with
  | nil => intro _; rfl
  | cons c cs ih =>
    intro h
    have hc : c.isWhitespace = true := h c (List.mem_cons_self c cs)
    simp only [splitWsAux, hc, if_pos, List.isEmpty_nil, if_true]
    exact ih fun d hd => h d (List.mem_cons_of_mem c hd)

/-- A nonempty line of nothing but whitespace fails with `BadLen`. -/
theorem from_str_ws_only (r : Resolver) (s : String) (hne : s ≠ "")
    (hws : ∀ c ∈ s.data, c.isWhitespace = true) :
    QuotaType.from_str r s = .error .BadLen := by
  obtain ⟨l⟩ := s
  cases l with
  | nil => exact absurd rfl hne
  | cons c cs =>
    have hc : c.isWhitespace = true := hws c (List.mem_cons_self c cs)
    have hhash : ¬((String.mk (c :: cs)).data.head? = some '#') := by
      simp only [String.data, List.head?_cons, Option.some.injEq]
      intro hceq
      rw [hceq] at hc
      exact absurd hc (by decide)
    unfold QuotaType.from_str
    have h1 : ¬((String.mk (c :: cs)).length = 0) := by simp [String.length]
    rw [if_neg h1, if_neg hhash]
    have hsplit : split_whitespace (String.mk (c :: cs)).data = [] :=
      splitWsAux_all_ws _ hws
    rw [hsplit]

/-- When every earlier line parses or is a comment and line `bad` fails with
an error other than `InnactiveEntry`, the loop stops with that error and
the running index plus the count of every earlier line, comments included. -/
theorem parseLines_first_error (r : Resolver) :
    ∀ (pre : List String) (conf : Config) (i : Nat) (bad : String) (post : List String)
      (e : ParseAccntError),
      (∀ l ∈ pre, line_passes r l = true) →
      QuotaType.from_str r bad = .error e → e ≠ .InnactiveEntry →
      parseLines r conf i (pre ++ bad :: post) = .error (.EntryError e (i + pre.length)) := by
  intro pre
  induction pre with
  | nil =>
    intro conf i bad post e _ h2 h3
    simp only [List.nil_append, parseLines, h2, List.length_nil, Nat.add_zero]
    rw [if_neg h3]
  | cons p pre ih =>
    intro conf i bad post e h1 h2 h3
    have hp : line_passes r p = true := h1 p (List.mem_cons_self p pre)
    have h1' : ∀ l ∈ pre, line_passes r l = true :=
      fun l hl => h1 l (List.mem_cons_of_mem p hl)
    have harith : i + 1 + pre.length = i + (p :: pre).length := by
      simp [List.length_cons]; omega
    simp only [List.cons_append, parseLines]
    unfold line_passes at hp
    cases hq : QuotaType.from_str r p with
    | ok q =>
      cases q with
      | Data a => rw [← harith]; exact ih _ _ _ _ _ h1' h2 h3
      | Time a => rw [← harith]; exact ih _ _ _ _ _ h1' h2 h3
    | error e' =>
      rw [hq] at hp
      have he' : e' = ParseAccntError.InnactiveEntry := by
        simpa using hp
      subst he'
      rw [← harith]
      exact ih _ _ _ _ _ h1' h2 h3

/-- Taking and dropping a predicate across an append whose left part
satisfies it and whose right part starts violating it. -/
theorem takeWhile_dropWhile_append (p : Char → Bool) :
    ∀ (l₁ l₂ : List Char), (∀ c ∈ l₁, p c = true) →
      (∀ c, l₂.head? = some c → p c = false) →
      (l₁ ++ l₂).takeWhile p = l₁ ∧ (l₁ ++ l₂).dropWhile p = l₂ := by
  intro l₁
  induction l₁ with
  | nil =>
    intro l₂ _ h2
    cases l₂ with
    | nil => exact ⟨rfl, rfl⟩
    | cons c cs =>
      have hc : p c = false := h2 c rfl
      simp [List.takeWhile, List.dropWhile, hc]
  | cons c cs ih =>
    intro l₂ h1 h2
    have hc : p c = true := h1 c (List.mem_cons_self c cs)
    have := ih l₂ (fun d hd => h1 d (List.mem_cons_of_mem c hd)) h2
    simp [List.takeWhile, List.dropWhile, hc, this.1, this.2]

/-- Committing a batch of rule additions appends the rules in order. -/
theorem applyBatch_adds : ∀ (rs : List Rule) (s : List Rule),
    applyBatch s (rs.map (NlMsg.ruleMsg .Add)) = s ++ rs := by
  intro rs
  induction rs with
  | nil => intro s; simp [applyBatch]
  | cons r rest ih =>
    intro s
    simp only [List.map_cons, applyBatch, List.foldl_cons, applyMsg]
    have := ih (s ++ [r])
    simp only [applyBatch] at this
    rw [this, List.append_assoc]
    rfl

/-- Committing a batch of rule deletions erases the rules in order. -/
theorem applyBatch_dels : ∀ (rs : List Rule) (s : List Rule),
    applyBatch s (rs.map (NlMsg.ruleMsg .Del)) = rs.foldl List.erase s := by
  intro rs
  induction rs with
  | nil => intro s; rfl
  | cons r rest ih =>
    intro s
    simp only [List.map_cons, applyBatch, List.foldl_cons]
    exact ih (s.erase r)

/-- Erasing freshly appended, pairwise distinct rules restores the set. -/
theorem foldl_erase_append : ∀ (rs s : List Rule), rs.Nodup → (∀ r ∈ rs, r ∉ s) →
    rs.foldl List.erase (s ++ rs) = s := by
  intro rs
  induction rs with
  | nil => intro s _ _; simp
  | cons r rest ih =>
    intro s hnd hdisj
    have hr_not_s : r ∉ s := hdisj r (List.mem_cons_self r rest)
    simp only [List.foldl_cons]
    have herase : (s ++ r :: rest).erase r = s ++ rest := by
      rw [List.erase_append_right _ hr_not_s, List.erase_cons_head]
    rw [herase]
    exact ih s (List.nodup_cons.mp hnd).2 fun x hx => hdisj x (List.mem_cons_of_mem r hx)

/-- Building the paired block-rule messages equals mapping a message
constructor over the flat block-rule list. -/
theorem flatMap_two_map (f : Rule → NlMsg) :
    ∀ (rs : List (Ipv4Network × TimeLimitRuleset)),
      (rs.flatMap fun p => [f p.2.block_in, f p.2.block_out]) =
      (rs.flatMap fun p => [p.2.block_in, p.2.block_out]).map f := by
  intro rs
  induction rs with
  | nil => rfl
  | cons p rest ih => simp [List.flatMap_cons, ih]

/-- The `block` batch of a time entry adds exactly its block rules. -/
theorem time_block_batch_eq (tq : NfTimeLimit) :
    tq.block_batch = (blockRulesList tq).map (NlMsg.ruleMsg .Add) :=
  flatMap_two_map _ tq.rules

/-- The `unblock` batch of a time entry deletes exactly its block rules. -/
theorem time_unblock_batch_eq (tq : NfTimeLimit) :
    tq.unblock_batch = (blockRulesList tq).map (NlMsg.ruleMsg .Del) :=
  flatMap_two_map _ tq.rules

/-! ## Claim theorems -/

/-- C1: when the timer of a `Running` time entry reaches its limit, the
source installs no block rules — the tick closure at the firing point emits
no netlink messages even though the `block` callback is installed and its
batch is nonempty, so the installed rule set keeps lacking `block_in` and
`block_out` (the invocation `cb()` is commented out in `ConnTimer::start`). -/
theorem c1_timer_fire_installs_no_block_rules :
    t1.cb = some tq0.block_batch
    ∧ tq0.block_batch ≠ []
    ∧ (ConnTimer.tick t1).2 = []
    ∧ applyBatch s_time0 (ConnTimer.tick t1).2 = s_time0
    ∧ tq0rs.block_in ∉ applyBatch s_time0 (ConnTimer.tick t1).2
    ∧ tq0rs.block_out ∉ applyBatch s_time0 (ConnTimer.tick t1).2 := by decide

/-- C2: on receipt of the first over-limit notification `dq_0`, the
dispatcher callback leaves the installed rule set unchanged — in
particular the log rule is still installed (so further notifications are
not prevented), contradicting the claimed `OverLimit` shape. -/
theorem c2_overlimit_event_leaves_log_rule :
    data_quota_event_step s_data0 "dq_0" = s_data0
    ∧ dq0rs.log ∈ data_quota_event_step s_data0 "dq_0"
    ∧ dq0rs.block ∈ data_quota_event_step s_data0 "dq_0" := by decide

/-- C3: an unreadable policy file is silently swallowed into a successfully
parsed empty policy, and a per-line parse error makes the startup path
panic through `unwrap` instead of returning the error for an exit-1 stop. -/
theorem c3_config_errors_swallowed :
    (∀ r : Resolver, Config.new_from_file r none = .ok ⟨[], []⟩)
    ∧ run_config_step r0 (some ["10.0.0.5 17xb"]) =
        .error "panic: called Result::unwrap() on an Err value" :=
  ⟨fun _ => rfl, by decide⟩

/-- C4 counterexample: an empty line does not parse to "no entry and no
error" — it aborts the whole file with the fatal `Empty` error (so the
following valid line is not parsed either). -/
theorem c4_blank_line_error :
    Config.new_from_file r0 (some ["", "10.0.0.5 1kb"]) = .error (.EntryError .Empty 0) := by decide

/-- C4 amended: a line whose first character is `#` (no leading whitespace
allowed) produces no entry and no error and leaves the successfully parsed
configuration of the remaining lines unchanged; an empty line fails with
the fatal `Empty` error and a nonempty line of only whitespace fails with
the fatal `BadLen` error. -/
theorem c4_comment_and_blank_line_handling :
    (∀ (r : Resolver) (pre post : List String) (l : String) (c : Config),
        l.data.head? = some '#' →
        (Config.new_from_file r (some (pre ++ l :: post)) = .ok c ↔
         Config.new_from_file r (some (pre ++ post)) = .ok c))
    ∧ (∀ r : Resolver, QuotaType.from_str r "" = .error .Empty)
    ∧ ∀ (r : Resolver) (s : String), s ≠ "" → (∀ c ∈ s.data, c.isWhitespace = true) →
        QuotaType.from_str r s = .error .BadLen := by
  refine ⟨?_, ?_, ?_⟩
  · intro r pre post l c hl
    exact parseLines_comment_insert r l hl pre _ _ post c
  · intro r; rfl
  · exact from_str_ws_only

/-- C4 witness: the amended statement applied to a comment line `# note`
after one valid entry, to the empty line, and to a one-space line. -/
theorem c4_comment_and_blank_line_handling_witness :
    (Config.new_from_file r0 (some (["10.0.0.5 1kb"] ++ "# note" :: [])) = .ok ⟨[⟨[ip1], 1000⟩], []⟩ ↔
     Config.new_from_file r0 (some (["10.0.0.5 1kb"] ++ [])) = .ok ⟨[⟨[ip1], 1000⟩], []⟩)
    ∧ QuotaType.from_str r0 "" = .error .Empty
    ∧ QuotaType.from_str r0 " " = .error .BadLen :=
  ⟨c4_comment_and_blank_line_handling.1 r0 ["10.0.0.5 1kb"] [] "# note" ⟨[⟨[ip1], 1000⟩], []⟩
      (by decide),
   c4_comment_and_blank_line_handling.2.1 r0,
   c4_comment_and_blank_line_handling.2.2 r0 " " (by decide) (by decide)⟩

/-- C5 counterexample: with `10.0.0.5 17xb` on 1-based line 4 after two
comment lines and one valid entry, the file-level error is
`EntryError(InvalidQuotaFormat, 3)` — a 0-based index that counts the
comment lines, and the quota-regex mismatch error, not
`EntryError(BadDataQuota, 4)`. -/
theorem c5_line_number_counterexample :
    Config.new_from_file r0 (some ["# a", "# b", "10.0.0.5 30s", "10.0.0.5 17xb"]) =
      .error (.EntryError .InvalidQuotaFormat 3)
    ∧ Config.new_from_file r0 (some ["# a", "# b", "10.0.0.5 30s", "10.0.0.5 17xb"]) ≠
      .error (.EntryError .ParseDataQuota 4) := by decide

/-- C5 amended: when parsing fails on an entry line, the file-level error
wraps that line's parse error with its 0-based index among all lines of
the file — comment lines do contribute to the count. -/
theorem c5_error_wraps_zero_based_line_index (r : Resolver) (pre post : List String)
    (bad : String) (e : ParseAccntError)
    (h1 : ∀ l ∈ pre, line_passes r l = true)
    (h2 : QuotaType.from_str r bad = .error e) (h3 : e ≠ .InnactiveEntry) :
    Config.new_from_file r (some (pre ++ bad :: post)) = .error (.EntryError e pre.length) := by
  have h := parseLines_first_error r pre ⟨[], []⟩ 0 bad post e h1 h2 h3
  simpa using h

/-- C5 witness: the amended statement applied to the scenario file, giving
index 3 for the malformed fourth line. -/
theorem c5_error_wraps_zero_based_line_index_witness :
    Config.new_from_file r0 (some (["# a", "# b", "10.0.0.5 30s"] ++ "10.0.0.5 17xb" :: [])) =
      .error (.EntryError .InvalidQuotaFormat 3) := by
  have h := c5_error_wraps_zero_based_line_index r0 ["# a", "# b", "10.0.0.5 30s"] []
    "10.0.0.5 17xb" .InvalidQuotaFormat (by decide) (by decide) (by decide)
  simpa using h

/-- C6: a domain line whose resolution succeeds but retains zero IPv4
addresses is accepted as an entry with an empty destination instead of
failing with `InvalidHostFormat`. -/
theorem c6_zero_ipv4_domain_accepted :
    QuotaType.from_str r6 "example.test 5m" = .ok (.Time ⟨[], 300⟩)
    ∧ QuotaType.from_str r6 "example.test 5m" ≠ .error .InvalidHostFormat := by decide

/-- C7 counterexample: for a data entry, `block` then `unblock` does not
restore the pre-block rule set — the log rule removed by `block` is still
absent afterwards, because `unblock` is a no-op. -/
theorem c7_data_roundtrip_counterexample :
    applyBatch (applyBatch s_data0 dq0.block_batch) dq0.unblock_batch ≠ s_data0
    ∧ dq0rs.log ∈ s_data0
    ∧ dq0rs.log ∉ applyBatch (applyBatch s_data0 dq0.block_batch) dq0.unblock_batch := by decide

/-- C7 amended: for a time entry whose block rules are distinct and not yet
installed, `block` then `unblock` restores the installed rule set exactly;
for a data entry `unblock` sends nothing, so the state after
`block; unblock` is the post-`block` state (log rule still removed). -/
theorem c7_block_unblock_roundtrip :
    (∀ (tq : NfTimeLimit) (s : List Rule),
        (blockRulesList tq).Nodup → (∀ m ∈ blockRulesList tq, m ∉ s) →
        applyBatch (applyBatch s tq.block_batch) tq.unblock_batch = s)
    ∧ ∀ (dq : NfDataLimit) (s : List Rule),
        applyBatch (applyBatch s dq.block_batch) dq.unblock_batch = applyBatch s dq.block_batch := by
  constructor
  · intro tq s hnd hdisj
    rw [time_block_batch_eq, time_unblock_batch_eq, applyBatch_adds, applyBatch_dels]
    exact foldl_erase_append _ _ hnd hdisj
  · intro dq s
    rfl

/-- C7 witness: the amended statement at the installed `tq_0` and `dq_0`
entries of the scenario policy. -/
theorem c7_block_unblock_roundtrip_witness :
    applyBatch (applyBatch s_time0 tq0.block_batch) tq0.unblock_batch = s_time0
    ∧ applyBatch (applyBatch s_data0 dq0.block_batch) dq0.unblock_batch =
        applyBatch s_data0 dq0.block_batch :=
  ⟨c7_block_unblock_roundtrip.1 tq0 s_time0 (by decide) (by decide),
   c7_block_unblock_roundtrip.2 dq0 s_data0⟩

/-- C8: a signal arriving before table creation does not skip the teardown
quietly — there is no installed-table flag, and the handler thread panics
inside `NfHandle::get` instead of exiting 0; after initialization the
handler deletes the table and exits 0. -/
theorem c8_signal_before_init_panics :
    signal_thread_step none = .panicked "nfhandle is not initialized"
    ∧ ∀ h : NfHandleModel, signal_thread_step (some h) = .exited 0 :=
  ⟨rfl, fun _ => rfl⟩

/-- C9: every data-quota literal `<n><suffix>` parses to `n` scaled by the
suffix multiplier (powers of 1000 for `kb|mb|gb`, powers of 1024 for
`kib|mib|gib`); in particular `10.0.0.5 1kb` parses to a data entry of
1000 bytes, and its installed quota object has limit 1000. -/
theorem c9_data_quota_scaling :
    (∀ (num : List Char) (u : ByteSuffix), num ≠ [] → (∀ c ∈ num, c.isDigit = true) →
        byte_from_str (num ++ u.chars) = some (digitsToNat num * u.mult))
    ∧ QuotaType.from_str r0 "10.0.0.5 1kb" = .ok (.Data ⟨[ip1], 1000⟩)
    ∧ (NfDataLimit.new ⟨[ip1], 1000⟩ DATA_IN_CHAIN_NAME "dq_0").quota.limit = 1000 := by
  refine ⟨?_, by decide, rfl⟩
  intro num u hne hdig
  have hhead : ∀ c, (ByteSuffix.chars u).head? = some c → c.isDigit = false := by
    cases u <;> (intro c hc; simp [ByteSuffix.chars] at hc; subst hc; decide)
  have h := takeWhile_dropWhile_append Char.isDigit num u.chars hdig hhead
  simp only [byte_from_str]
  rw [h.1, h.2]
  have hni : ¬(num.isEmpty = true) := by
    cases num with
    | nil => exact absurd rfl hne
    | cons c cs => simp
  rw [if_neg hni]
  have hread : readByteSuffix u.chars = some u := by cases u <;> rfl
  rw [hread]
  rfl

/-- C9 witness: the scaling law at the literal `1kb`. -/
theorem c9_data_quota_scaling_witness :
    byte_from_str (['1'] ++ ByteSuffix.kb.chars) = some (digitsToNat ['1'] * ByteSuffix.kb.mult) :=
  c9_data_quota_scaling.1 ['1'] .kb (by decide) (by decide)

/-- C10: with `--log <p>` logging initialization leaves `p` as a fresh
empty file whatever was there before; without `--log` the filesystem is
untouched. -/
theorem c10_log_file_initialization (fs : FsState) (p : String) :
    logging_init_fs (some p) fs p = some "" ∧ logging_init_fs none fs = fs := by
  constructor
  · show create_log_file fs p p = some ""
    unfold create_log_file
    by_cases h : (fs p).isSome
    · rw [if_pos h]
      show (if p = p then some "" else (remove_file fs p) p) = some ""
      rw [if_pos rfl]
    · rw [if_neg h]
      show (if p = p then some "" else fs p) = some ""
      rw [if_pos rfl]
  · rfl
